import Mathlib

/-!
Verification of the PyMESHub graph-to-matrix compiler and symbolic
coupling-matrix derivation.

The Python source is shallowly embedded: sympy exact arithmetic is modelled
by `ℚ`, sympy matrices produced by the assembler by `List (List ℚ)`
(row-major, as sympy stores them), the networkx `DiGraph` used by
`GraphEnergyHub` by a node list plus the chronological list of successful
`connect` calls, with edge enumeration reproducing networkx adjacency
order (source nodes in insertion order, then first-insertion order of each
target, with attributes of a repeated (source, target) pair overwritten by
the latest call).  Python `ValueError`s are modelled by `Except Err`.
-/

namespace PyMESHub

/-- Every failure the core raises (all are `ValueError`s in the source). -/
inductive Err
  | duplicateName
  | nodeNotFound
  | portValidation
  | noBranches
  | binding
  | dimension
  | singular
  deriving DecidableEq, Repr

/-- Role of a boundary node (`add_io_node`). -/
inductive IOType
  | input
  | output
  deriving DecidableEq, Repr

/-- Closed catalogue of component variants registered in
`GraphEnergyHub._component_types`; used to model the
`isinstance(comp, Storage)` test in `GraphEnergyHub.build`. -/
inductive CompVariant
  | chpBackPressure
  | boiler
  | storage
  | convertibleLoad
  | electricBoiler
  | heatPump
  | absorptionChiller
  | transformer
  | powerToGas
  deriving DecidableEq, Repr

/-- A component instance: name, port registries (`{port_name: port_index}`
in registration order), characteristic matrix `H` (rows are balance
equations over the component ports), and its variant tag. -/
structure Component where
  name : String
  inputPorts : List (String × Nat)
  outputPorts : List (String × Nat)
  numPorts : Nat
  H : List (List ℚ)
  variant : CompVariant
  deriving DecidableEq, Repr

/-- `CHPBackPressure.__init__` / `get_characteristic_matrix`:
ports `fuel_in ↦ 0`, `heat_out ↦ 1`, electricity ports from index 2 on
(default port list `[elec_out]` when none is supplied);
`H = [[eta_q, -1, 0...], [eta_w, 0, -1...]]`. -/
def CHPBackPressure (name : String) (etaQ etaW : ℚ) (elecPorts : List String) :
    Component :=
  let ep := if elecPorts.isEmpty then ["elec_out"] else elecPorts
  { name := name
    inputPorts := [("fuel_in", 0)]
    outputPorts := ("heat_out", 1) :: ep.enum.map (fun pi => (pi.2, 2 + pi.1))
    numPorts := 2 + ep.length
    H := [[etaQ, -1] ++ List.replicate ep.length 0,
          [etaW, 0] ++ List.replicate ep.length (-1)]
    variant := .chpBackPressure }

/-- `Boiler`: `fuel_in ↦ 0`, `heat_out ↦ 1`, `H = [[eta, -1]]`. -/
def Boiler (name : String) (eta : ℚ) : Component :=
  { name := name
    inputPorts := [("fuel_in", 0)]
    outputPorts := [("heat_out", 1)]
    numPorts := 2
    H := [[eta, -1]]
    variant := .boiler }

/-- `Storage.__init__` / `get_characteristic_matrix`: `energy_in ↦ 0`
(input), `energy_out ↦ 1` (output), virtual port `delta_soc ↦ 2` registered
as an *input* port; `H = [[eta_c, -1/eta_d, -1]]`. -/
def Storage (name : String) (etaC etaD : ℚ) : Component :=
  { name := name
    inputPorts := [("energy_in", 0), ("delta_soc", 2)]
    outputPorts := [("energy_out", 1)]
    numPorts := 3
    H := [[etaC, -1 / etaD, -1]]
    variant := .storage }

/-- `ConvertibleLoad`: two inputs, one output, `H = [[-1, -ratio, 1]]`. -/
def ConvertibleLoad (name : String) (ratio : ℚ) : Component :=
  { name := name
    inputPorts := [("elec_supply", 0), ("heat_supply", 1)]
    outputPorts := [("satisfied_demand", 2)]
    numPorts := 3
    H := [[-1, -ratio, 1]]
    variant := .convertibleLoad }

/-- Shared shape of the simple two-port converters
(`ElectricBoiler`, `HeatPump`, `AbsorptionChiller`, `Transformer`,
`PowerToGas`): one input port at index 0, one output port at index 1,
`H = [[gain, -1]]`. -/
def twoPortConverter (name inPort outPort : String) (gain : ℚ)
    (variant : CompVariant) : Component :=
  { name := name
    inputPorts := [(inPort, 0)]
    outputPorts := [(outPort, 1)]
    numPorts := 2
    H := [[gain, -1]]
    variant := variant }

def ElectricBoiler (name : String) (eta : ℚ) : Component :=
  twoPortConverter name "elec_in" "heat_out" eta .electricBoiler

def HeatPump (name : String) (cop : ℚ) : Component :=
  twoPortConverter name "elec_in" "heat_out" cop .heatPump

def AbsorptionChiller (name : String) (cop : ℚ) : Component :=
  twoPortConverter name "heat_in" "cool_out" cop .absorptionChiller

def Transformer (name : String) (eta : ℚ) : Component :=
  twoPortConverter name "elec_in" "elec_out" eta .transformer

def PowerToGas (name : String) (eta : ℚ) : Component :=
  twoPortConverter name "elec_in" "gas_out" eta .powerToGas

/-! ## The topology graph (`GraphEnergyHub`) -/

/-- A graph node: a component node or a boundary node. -/
inductive NodeKind
  | component (c : Component)
  | ioNode (t : IOType)
  deriving DecidableEq, Repr

structure Node where
  name : String
  kind : NodeKind
  deriving DecidableEq, Repr

/-- One successful `connect` call. -/
structure RawEdge where
  src : String
  srcPort : String
  dst : String
  dstPort : String
  deriving DecidableEq, Repr

/-- `GraphEnergyHub` state: nodes in insertion order, plus the chronological
list of successful `connect` calls.  The networkx `DiGraph` edge store is
recovered from this list by `enumEdges` below. -/
structure TopoGraph where
  nodes : List Node
  edges : List RawEdge
  deriving DecidableEq, Repr

def emptyGraph : TopoGraph := { nodes := [], edges := [] }

def nodeKind? (g : TopoGraph) (name : String) : Option NodeKind :=
  (g.nodes.find? (fun n => n.name = name)).map Node.kind

/-- `GraphEnergyHub.add_component` (the component value stands for the
instance built from the registered type and parameters). -/
def addComponent (g : TopoGraph) (c : Component) : Except Err TopoGraph :=
  if g.nodes.any (fun n => n.name = c.name) then .error .duplicateName
  else .ok { g with nodes := g.nodes ++ [⟨c.name, .component c⟩] }

/-- `GraphEnergyHub.add_io_node`. -/
def addIONode (g : TopoGraph) (name : String) (t : IOType) :
    Except Err TopoGraph :=
  if g.nodes.any (fun n => n.name = name) then .error .duplicateName
  else .ok { g with nodes := g.nodes ++ [⟨name, .ioNode t⟩] }

/-- `GraphEnergyHub.connect`: endpoint existence plus port/direction
validation, then `DiGraph.add_edge` (recorded chronologically). -/
def connect (g : TopoGraph) (u p v q : String) : Except Err TopoGraph :=
  match nodeKind? g u with
  | none => .error .nodeNotFound
  | some ku =>
    match nodeKind? g v with
    | none => .error .nodeNotFound
    | some kv =>
      let srcOk : Bool :=
        match ku with
        | .component c => c.outputPorts.any (fun pi => pi.1 = p)
        | .ioNode t => t = .input
      let dstOk : Bool :=
        match kv with
        | .component c => c.inputPorts.any (fun pi => pi.1 = q)
        | .ioNode t => t = .output
      if srcOk then
        if dstOk then .ok { g with edges := g.edges ++ [⟨u, p, v, q⟩] }
        else .error .portValidation
      else .error .portValidation

/-- `branch_name = f"{from_node}_{from_port}_to_{to_node}_{to_port}"`. -/
def branchName (e : RawEdge) : String :=
  e.src ++ "_" ++ e.srcPort ++ "_to_" ++ e.dst ++ "_" ++ e.dstPort

/-- First-occurrence deduplication (networkx adjacency keeps the position
of the first insertion of each successor). -/
def dedupFirstAux (seen : List String) : List String → List String
  | [] => []
  | a :: l =>
    if a ∈ seen then dedupFirstAux seen l
    else a :: dedupFirstAux (a :: seen) l

def dedupFirst (l : List String) : List String := dedupFirstAux [] l

/-- Successors of `u` in networkx adjacency order. -/
def succsOf (es : List RawEdge) (u : String) : List String :=
  dedupFirst ((es.filter (fun e => e.src = u)).map RawEdge.dst)

/-- The surviving attributes of the (u, v) edge: `add_edge` on an existing
pair overwrites, so the last call wins. -/
def lastEdge (es : List RawEdge) (u v : String) : Option RawEdge :=
  (es.filter (fun e => e.src = u ∧ e.dst = v)).getLast?

/-- `self.graph.edges(data=True)`: for each node in insertion order, its
successors in first-insertion order, each with the latest attributes. -/
def enumEdges (g : TopoGraph) : List RawEdge :=
  g.nodes.flatMap
    (fun n => (succsOf g.edges n.name).filterMap (lastEdge g.edges n.name))

/-! ## Graph compilation (`GraphEnergyHub.build`) -/

/-- Python string comparison: lexicographic on the code-point sequence. -/
def strLe (a b : String) : Prop := a.data ≤ b.data

instance : DecidableRel strLe := fun a b =>
  inferInstanceAs (Decidable (a.data ≤ b.data))

instance : IsTrans String strLe :=
  ⟨fun _ _ _ hab hbc => le_trans hab hbc⟩

instance : IsTotal String strLe :=
  ⟨fun a b => le_total a.data b.data⟩

instance : IsAntisymm String strLe :=
  ⟨fun a b hab hba => by
    cases a; cases b
    exact congrArg String.mk (le_antisymm hab hba)⟩

/-- Python `sorted(list(set(...)))` on strings: deduplicate, then sort
lexicographically by code point. -/
def sortDedup (l : List String) : List String :=
  List.insertionSort strLe l.dedup

/-- The intermediate `config` dictionary produced by
`GraphEnergyHub.build`.  `portMappings` is kept as the chronological list
of `port_mappings[comp][port] = branch` assignments; the dict semantics
(later assignment to the same key overwrites) is recovered by
`bindingOf`. -/
structure Config where
  branches : List String
  portMappings : List ((String × String) × String)
  hubInputs : List String
  hubOutputs : List String
  deriving DecidableEq, Repr

def isCompNode (g : TopoGraph) (name : String) : Bool :=
  match nodeKind? g name with
  | some (.component _) => true
  | _ => false

def isIONode (g : TopoGraph) (name : String) (t : IOType) : Bool :=
  match nodeKind? g name with
  | some (.ioNode s) => s = t
  | _ => false

/-- The component instances of the graph, in registration order
(`self.component_instances.items()`). -/
def componentsOf (g : TopoGraph) : List Component :=
  g.nodes.filterMap (fun n =>
    match n.kind with
    | .component c => some c
    | _ => none)

/-- The storage-variant instances, in registration order
(`isinstance(comp_instance, Storage)`). -/
def storageComps (g : TopoGraph) : List Component :=
  (componentsOf g).filter (fun c => c.variant = .storage)

/-- The auto-generated branch for a storage component:
`f"{comp_name}_{virtual_port_name}_branch"` with the fixed
`virtual_port_name = delta_soc`. -/
def virtualBranchName (c : Component) : String :=
  c.name ++ "_delta_soc_branch"

/-- The `port_mappings` assignments made while looping over
`self.graph.edges(data=True)`, in loop order. -/
def edgeAssignments (g : TopoGraph) : List ((String × String) × String) :=
  (enumEdges g).flatMap (fun e =>
    (if isCompNode g e.src then [((e.src, e.srcPort), branchName e)] else [])
      ++ (if isCompNode g e.dst then [((e.dst, e.dstPort), branchName e)] else []))

/-- The `port_mappings` assignments for storage virtual ports, made after
the edge loop. -/
def virtualAssignments (g : TopoGraph) : List ((String × String) × String) :=
  (storageComps g).map (fun c => ((c.name, "delta_soc"), virtualBranchName c))

/-- `GraphEnergyHub.build`, steps 1–2: the generated configuration. -/
def buildConfig (g : TopoGraph) : Config :=
  let es := enumEdges g
  { branches :=
      sortDedup (es.map branchName ++ (storageComps g).map virtualBranchName)
    portMappings := edgeAssignments g ++ virtualAssignments g
    hubInputs := sortDedup
      ((es.filter (fun e => isIONode g e.src .input)).map branchName)
    hubOutputs := sortDedup
      ((es.filter (fun e => isIONode g e.dst .output)).map branchName) }

/-- Dict lookup over chronological assignments: the last write wins. -/
def bindingOf (pm : List ((String × String) × String)) (c p : String) :
    Option String :=
  ((pm.filter (fun kv => kv.1 = (c, p))).getLast?).map Prod.snd

/-- The branch bound to `(component, port)` after compilation. -/
def bindingOfGraph (g : TopoGraph) (c p : String) : Option String :=
  bindingOf (buildConfig g).portMappings c p

/-! ## `EnergyHub.load_config` -/

/-- The populated `EnergyHub` state: components (registration order),
the ordered global branch list, the `(comp, port) → global branch index`
map (as chronological assignments, last write wins), and the hub
input/output branch index lists. -/
structure EnergyHub where
  components : List Component
  globalBranches : List String
  portToGlobalBranch : List ((String × String) × Nat)
  hubInputIdx : List Nat
  hubOutputIdx : List Nat
  deriving DecidableEq, Repr

/-- `port_to_global_branch_map.get((comp_name, port_name))`. -/
def lookupBinding (h : EnergyHub) (c p : String) : Option Nat :=
  ((h.portToGlobalBranch.filter (fun kv => kv.1 = (c, p))).getLast?).map
    Prod.snd

/-- `GraphEnergyHub.build` steps 3: `EnergyHub.load_config` applied to the
generated configuration (components are re-instantiated from the stored
constructor arguments, hence equal to the graph instances). -/
def hubOfGraph (g : TopoGraph) : EnergyHub :=
  let cfg := buildConfig g
  { components := componentsOf g
    globalBranches := cfg.branches
    portToGlobalBranch :=
      cfg.portMappings.map (fun kv => (kv.1, cfg.branches.indexOf kv.2))
    hubInputIdx := cfg.hubInputs.map cfg.branches.indexOf
    hubOutputIdx := cfg.hubOutputs.map cfg.branches.indexOf }

/-! ## `MatrixBuilder.build_system_matrices` -/

/-- The per-port incidence assignments of a component, in the loop order of
the assembler: all input ports (sign `+1`), then all output ports
(sign `-1`). -/
def portSigns (c : Component) : List (String × Nat × ℚ) :=
  c.inputPorts.map (fun pi => (pi.1, pi.2, 1))
    ++ c.outputPorts.map (fun pi => (pi.1, pi.2, -1))

/-- Resolve each port of the component to
`(local port row, global branch column, sign)`; the first port without a
binding raises the Binding error. -/
def resolvePorts (h : EnergyHub) (cname : String) :
    List (String × Nat × ℚ) → Except Err (List (Nat × Nat × ℚ))
  | [] => .ok []
  | (p, i, s) :: rest =>
    match lookupBinding h cname p with
    | some b => (resolvePorts h cname rest).map (fun l => (i, b, s) :: l)
    | none => .error .binding

/-- Imperative matrix entry assignment `M[r, c] = v` on a zero-initialised
matrix represented as an entry function. -/
def updFun (M : Nat → Nat → ℚ) (r c : Nat) (v : ℚ) : Nat → Nat → ℚ :=
  fun i j => if i = r ∧ j = c then v else M i j

/-- `Ag_global` as an entry function: start from `sympy.zeros` and apply
the resolved assignments in order. -/
def agFun (asg : List (Nat × Nat × ℚ)) : Nat → Nat → ℚ :=
  asg.foldl (fun M e => updFun M e.1 e.2.1 e.2.2) (fun _ _ => 0)

/-- Entry `(r, p)` of the characteristic matrix `Hg`. -/
def hEntry (c : Component) (r p : Nat) : ℚ :=
  (c.H.getD r []).getD p 0

/-- Row `r` of `Zg = Hg * Ag_global` (a `1 × B` row). -/
def zRow (c : Component) (ag : Nat → Nat → ℚ) (B r : Nat) : List ℚ :=
  (List.range B).map (fun j =>
    ((List.range c.numPorts).map (fun p => hEntry c r p * ag p j)).sum)

/-- The `Zg` block contributed by one component. -/
def zBlock (c : Component) (ag : Nat → Nat → ℚ) (B : Nat) :
    List (List ℚ) :=
  (List.range c.H.length).map (zRow c ag B)

/-- The component loop of `build_system_matrices`: one `Zg` block per
component, in registration order; aborts with the Binding error of the
first unbound port encountered. -/
def buildZBlocks (h : EnergyHub) (B : Nat) :
    List Component → Except Err (List (List (List ℚ)))
  | [] => .ok []
  | c :: rest =>
    match resolvePorts h c.name (portSigns c) with
    | .error e => .error e
    | .ok asg =>
      (buildZBlocks h B rest).map (fun l => zBlock c (agFun asg) B :: l)

/-- An indicator row of length `B` with a `1` at column `bi`. -/
def indicatorRow (B bi : Nat) : List ℚ :=
  (List.range B).map (fun j => if j = bi then 1 else 0)

/-- `MatrixBuilder.build_system_matrices`: the assembled `(X, Y, Z)`
(row-major), or the error raised. -/
def buildSystemMatrices (h : EnergyHub) :
    Except Err (List (List ℚ) × List (List ℚ) × List (List ℚ)) :=
  let B := h.globalBranches.length
  if B = 0 then .error .noBranches
  else
    match buildZBlocks h B h.components with
    | .error e => .error e
    | .ok blocks =>
      .ok (h.hubInputIdx.map (indicatorRow B),
           h.hubOutputIdx.map (indicatorRow B),
           blocks.flatten)

/-! ## `SymbolicAnalyzer.derive_coupling_matrix` -/

/-- Entry `(i, j)` of a row-major list matrix (out-of-range reads as `0`;
the derivation only ever reads in range). -/
def entryOf (L : List (List ℚ)) (i j : Nat) : ℚ :=
  (L.getD i []).getD j 0

/-- `Q = Matrix.vstack(X, Z)`, as a square `B × B` matrix (meaningful once
the squareness check `X.rows + Z.rows = B` has passed). -/
def Qmat (Xr Zr : List (List ℚ)) (B : Nat) : Matrix (Fin B) (Fin B) ℚ :=
  Matrix.of (fun i j => entryOf (Xr ++ Zr) i j)

/-- The output selector `Y` as a `q × B` matrix. -/
def Ymat (Yr : List (List ℚ)) (B : Nat) :
    Matrix (Fin Yr.length) (Fin B) ℚ :=
  Matrix.of (fun i j => entryOf Yr i j)

/-- `R = Matrix.vstack(-eye(m), zeros(k, m))` as a `B × m` matrix. -/
def Rmat (B m : Nat) : Matrix (Fin B) (Fin m) ℚ :=
  Matrix.of (fun i j => if (i : Nat) = (j : Nat) then -1 else 0)

/-- Exact symbolic inversion (`sympy.Matrix.inv` on an exact matrix):
the adjugate divided by the determinant. -/
def symInv {n : Nat} (M : Matrix (Fin n) (Fin n) ℚ) :
    Matrix (Fin n) (Fin n) ℚ :=
  M.det⁻¹ • M.adjugate

/-- `SymbolicAnalyzer.derive_coupling_matrix` on assembled matrices with
`B` columns: squareness check, exact inversion (failing on a singular
`Q`, i.e. zero determinant), then `C = -Y * Q.inv() * R`. -/
def deriveCouplingMatrix (Xr Yr Zr : List (List ℚ)) (B : Nat) :
    Except Err (Matrix (Fin Yr.length) (Fin Xr.length) ℚ) :=
  if Xr.length + Zr.length = B then
    if (Qmat Xr Zr B).det = 0 then .error .singular
    else .ok (-(Ymat Yr B * symInv (Qmat Xr Zr B) * Rmat B Xr.length))
  else .error .dimension

/-! ## General lemmas about the compiled branch order -/

theorem sortDedup_sorted (l : List String) : (sortDedup l).Sorted strLe :=
  List.sorted_insertionSort strLe l.dedup

theorem sortDedup_perm_dedup (l : List String) :
    List.Perm (sortDedup l) l.dedup :=
  List.perm_insertionSort strLe l.dedup

theorem sortDedup_nodup (l : List String) : (sortDedup l).Nodup :=
  (sortDedup_perm_dedup l).nodup_iff.mpr l.nodup_dedup

theorem mem_sortDedup {a : String} {l : List String} :
    a ∈ sortDedup l ↔ a ∈ l := by
  rw [(sortDedup_perm_dedup l).mem_iff, List.mem_dedup]

theorem sortDedup_length (l : List String) :
    (sortDedup l).length = l.toFinset.card := by
  rw [(sortDedup_perm_dedup l).length_eq, List.card_toFinset]

/-! ## Claims -/

/-- The five-call topology of `examples/01_build_with_graph.py` (the
two-converter scenario of the spec), via the builder API. -/
def scenarioGraphResult : Except Err TopoGraph := do
  let g := emptyGraph
  let g ← addComponent g (CHPBackPressure "CHP1" (4/5) (3/10) [])
  let g ← addComponent g (Boiler "Boiler1" (9/10))
  let g ← addIONode g "GasInput" .input
  let g ← addIONode g "HeatLoad" .output
  let g ← addIONode g "ElecLoad" .output
  let g ← connect g "GasInput" "out" "CHP1" "fuel_in"
  let g ← connect g "CHP1" "heat_out" "HeatLoad" "in"
  let g ← connect g "CHP1" "elec_out" "ElecLoad" "in"
  let g ← connect g "GasInput" "out" "Boiler1" "fuel_in"
  let g ← connect g "Boiler1" "heat_out" "HeatLoad" "in"
  pure g

/-- The graph state the scenario calls produce. -/
def scenarioGraphValue : TopoGraph :=
  { nodes :=
      [⟨"CHP1", .component (CHPBackPressure "CHP1" (4/5) (3/10) [])⟩,
       ⟨"Boiler1", .component (Boiler "Boiler1" (9/10))⟩,
       ⟨"GasInput", .ioNode .input⟩,
       ⟨"HeatLoad", .ioNode .output⟩,
       ⟨"ElecLoad", .ioNode .output⟩]
    edges :=
      [⟨"GasInput", "out", "CHP1", "fuel_in"⟩,
       ⟨"CHP1", "heat_out", "HeatLoad", "in"⟩,
       ⟨"CHP1", "elec_out", "ElecLoad", "in"⟩,
       ⟨"GasInput", "out", "Boiler1", "fuel_in"⟩,
       ⟨"Boiler1", "heat_out", "HeatLoad", "in"⟩] }

/-- C1: for every fixed topology graph (same components, boundary nodes and
edges), compiling twice yields the same hub — in particular the same
branch names at the same indices — and bit-identical assembled X, Y, Z
matrices; the compiled branch list is lexicographically sorted and free of
duplicates. -/
theorem c1_compile_deterministic (g₁ g₂ : TopoGraph)
    (hnodes : g₁.nodes = g₂.nodes) (hedges : g₁.edges = g₂.edges) :
    hubOfGraph g₁ = hubOfGraph g₂ ∧
    buildSystemMatrices (hubOfGraph g₁) = buildSystemMatrices (hubOfGraph g₂) ∧
    List.Sorted strLe (buildConfig g₁).branches ∧
    (buildConfig g₁).branches.Nodup := by
  obtain ⟨n₁, e₁⟩ := g₁
  obtain ⟨n₂, e₂⟩ := g₂
  cases hnodes
  cases hedges
  exact ⟨rfl, rfl, sortDedup_sorted _, sortDedup_nodup _⟩

/-- Witness for C1 at the two-converter scenario graph. -/
theorem c1_compile_deterministic_witness :
    hubOfGraph scenarioGraphValue = hubOfGraph scenarioGraphValue ∧
    buildSystemMatrices (hubOfGraph scenarioGraphValue) =
      buildSystemMatrices (hubOfGraph scenarioGraphValue) ∧
    List.Sorted strLe (buildConfig scenarioGraphValue).branches ∧
    (buildConfig scenarioGraphValue).branches.Nodup :=
  c1_compile_deterministic scenarioGraphValue scenarioGraphValue rfl rfl

/-- Two `connect` calls between the same pair of nodes through different
ports (a CHP unit with two electricity ports feeding one demand node). -/
def c2graphResult : Except Err TopoGraph := do
  let g ← addComponent emptyGraph (CHPBackPressure "CHP1" (4/5) (3/10) ["e1", "e2"])
  let g ← addIONode g "D" .output
  let g ← connect g "CHP1" "e1" "D" "in"
  connect g "CHP1" "e2" "D" "in"

def c2graphValue : TopoGraph :=
  { nodes :=
      [⟨"CHP1", .component (CHPBackPressure "CHP1" (4/5) (3/10) ["e1", "e2"])⟩,
       ⟨"D", .ioNode .output⟩]
    edges :=
      [⟨"CHP1", "e1", "D", "in"⟩, ⟨"CHP1", "e2", "D", "in"⟩] }

/-- C2 (code bug): both `connect` calls succeed, but the `nx.DiGraph` keys
edges by node pair only, so the second call overwrites the first: the
graph ends up with a single enumerated edge carrying the last call's
ports, and compilation yields one branch named from the last call, not two
distinct branches. -/
theorem c2_parallel_edges_overwritten :
    c2graphResult = .ok c2graphValue ∧
    enumEdges c2graphValue = [⟨"CHP1", "e2", "D", "in"⟩] ∧
    (buildConfig c2graphValue).branches = ["CHP1_e2_to_D_in"] ∧
    (buildConfig c2graphValue).branches.length = 1 :=
  ⟨rfl, rfl, rfl, rfl⟩

def chp1 : Component := CHPBackPressure "CHP1" (4/5) (3/10) []

def boiler1 : Component := Boiler "Boiler1" (9/10)

/-- The hub compiled from the two-converter scenario graph. -/
def scenarioHub : EnergyHub :=
  { components := [chp1, boiler1]
    globalBranches :=
      ["Boiler1_heat_out_to_HeatLoad_in", "CHP1_elec_out_to_ElecLoad_in",
       "CHP1_heat_out_to_HeatLoad_in", "GasInput_out_to_Boiler1_fuel_in",
       "GasInput_out_to_CHP1_fuel_in"]
    portToGlobalBranch :=
      [(("CHP1", "heat_out"), 2), (("CHP1", "elec_out"), 1),
       (("Boiler1", "heat_out"), 0), (("CHP1", "fuel_in"), 4),
       (("Boiler1", "fuel_in"), 3)]
    hubInputIdx := [3, 4]
    hubOutputIdx := [0, 1, 2] }

/-- C7: the two-converter numeric scenario (back-pressure unit with
`eta_q = 0.8`, `eta_w = 0.3`, boiler with `eta = 0.9`, shared gas input,
shared heat output, electricity output from the CHP alone) compiles to the
expected lexicographically sorted 5-branch system and assembles exactly
the expected X, Y and Z matrices. -/
theorem c7_two_converter_scenario :
    scenarioGraphResult = .ok scenarioGraphValue ∧
    (buildConfig scenarioGraphValue).branches =
      ["Boiler1_heat_out_to_HeatLoad_in", "CHP1_elec_out_to_ElecLoad_in",
       "CHP1_heat_out_to_HeatLoad_in", "GasInput_out_to_Boiler1_fuel_in",
       "GasInput_out_to_CHP1_fuel_in"] ∧
    hubOfGraph scenarioGraphValue = scenarioHub ∧
    buildSystemMatrices scenarioHub =
      .ok ([[0, 0, 0, 1, 0], [0, 0, 0, 0, 1]],
           [[1, 0, 0, 0, 0], [0, 1, 0, 0, 0], [0, 0, 1, 0, 0]],
           [[0, 0, 1, 0, 4/5], [0, 1, 0, 0, 3/10], [1, 0, 0, 9/10, 0]]) := by
  refine ⟨rfl, rfl, rfl, ?_⟩
  have hc : scenarioHub.components = [chp1, boiler1] := rfl
  have hB : scenarioHub.globalBranches.length = 5 := rfl
  have h1n : chp1.name = "CHP1" := rfl
  have h2n : boiler1.name = "Boiler1" := rfl
  have h1 : resolvePorts scenarioHub "CHP1" (portSigns chp1) =
      .ok [(0, 4, 1), (1, 2, -1), (2, 1, -1)] := rfl
  have h2 : resolvePorts scenarioHub "Boiler1" (portSigns boiler1) =
      .ok [(0, 3, 1), (1, 0, -1)] := rfl
  have hx : scenarioHub.hubInputIdx = [3, 4] := rfl
  have hy : scenarioHub.hubOutputIdx = [0, 1, 2] := rfl
  simp only [buildSystemMatrices, hB, hc, hx, hy, buildZBlocks, h1n, h1, h2n, h2]
  norm_num [zBlock, zRow, hEntry, agFun, updFun, chp1, boiler1, CHPBackPressure,
    Boiler, indicatorRow, List.range_succ, List.foldl_cons, List.foldl_nil,
    Except.map, List.flatten_cons, List.flatten_nil]

/-! ## Lemmas for the coupling derivation -/

theorem symInv_mul_cancel {n : Nat} (M : Matrix (Fin n) (Fin n) ℚ)
    (h : M.det ≠ 0) : M * symInv M = 1 ∧ symInv M * M = 1 := by
  constructor
  · rw [symInv, Matrix.mul_smul, Matrix.mul_adjugate, smul_smul,
      inv_mul_cancel₀ h, one_smul]
  · rw [symInv, Matrix.smul_mul, Matrix.adjugate_mul, smul_smul,
      inv_mul_cancel₀ h, one_smul]

theorem entryOf_append_left {Xr Zr : List (List ℚ)} {i : Nat} (j : Nat)
    (h : i < Xr.length) : entryOf (Xr ++ Zr) i j = entryOf Xr i j := by
  simp [entryOf, List.getD_eq_getElem?_getD, List.getElem?_append, h]

theorem entryOf_append_right {Xr Zr : List (List ℚ)} {i : Nat} (j : Nat)
    (h : Xr.length ≤ i) :
    entryOf (Xr ++ Zr) i j = entryOf Zr (i - Xr.length) j := by
  simp [entryOf, List.getD_eq_getElem?_getD, List.getElem?_append,
    show ¬ i < Xr.length by omega]

/-- C3: with the matrices set and `Q` square, the derivation works on
`Q` = `X` stacked above `Z` and `R` = a negative `m × m` identity stacked
above a `k × m` zero block; when `Q` is invertible it returns exactly
`C = -Y * Q⁻¹ * R` where the symbolic inverse is an exact two-sided
inverse of `Q`, and when `Q` is square but not invertible (zero
determinant, equivalently no right inverse exists) it fails with the
Singular-system error. -/
theorem c3_coupling_formula (Xr Yr Zr : List (List ℚ)) (B : Nat)
    (hsq : Xr.length + Zr.length = B) :
    (∀ (i j : Fin B),
        ((i : Nat) < Xr.length → Qmat Xr Zr B i j = entryOf Xr i j) ∧
        (Xr.length ≤ (i : Nat) →
          Qmat Xr Zr B i j = entryOf Zr (i - Xr.length) j)) ∧
    (∀ (i : Fin B) (j : Fin Xr.length),
        ((i : Nat) < Xr.length →
          Rmat B Xr.length i j = if (i : Nat) = (j : Nat) then -1 else 0) ∧
        (Xr.length ≤ (i : Nat) → Rmat B Xr.length i j = 0)) ∧
    ((Qmat Xr Zr B).det ≠ 0 →
        deriveCouplingMatrix Xr Yr Zr B =
          .ok (-(Ymat Yr B * symInv (Qmat Xr Zr B) * Rmat B Xr.length)) ∧
        Qmat Xr Zr B * symInv (Qmat Xr Zr B) = 1 ∧
        symInv (Qmat Xr Zr B) * Qmat Xr Zr B = 1) ∧
    ((Qmat Xr Zr B).det = 0 →
        (∀ W : Matrix (Fin B) (Fin B) ℚ, Qmat Xr Zr B * W ≠ 1) ∧
        deriveCouplingMatrix Xr Yr Zr B = .error .singular) := by
  refine ⟨?_, ?_, ?_, ?_⟩
  · intro i j
    exact ⟨fun h => entryOf_append_left _ h, fun h => entryOf_append_right _ h⟩
  · intro i j
    refine ⟨fun _ => rfl, fun h => ?_⟩
    show (if (i : Nat) = (j : Nat) then (-1 : ℚ) else 0) = 0
    exact if_neg (by omega)
  · intro hdet
    refine ⟨?_, symInv_mul_cancel _ hdet⟩
    unfold deriveCouplingMatrix
    rw [if_pos hsq, if_neg hdet]
  · intro hdet
    refine ⟨fun W hW => ?_, ?_⟩
    · exact Matrix.det_ne_zero_of_right_inverse hW hdet
    · unfold deriveCouplingMatrix
      rw [if_pos hsq, if_pos hdet]

/-- Witness for C3 at the assembled single-boiler hub
(`X = [[0,1]]`, `Y = [[1,0]]`, `Z = [[1, 9/10]]`, two branches). -/
theorem c3_coupling_formula_witness :
    (∀ (i j : Fin 2),
        ((i : Nat) < [[(0 : ℚ), 1]].length →
          Qmat [[0, 1]] [[1, 9/10]] 2 i j = entryOf [[0, 1]] i j) ∧
        ([[(0 : ℚ), 1]].length ≤ (i : Nat) →
          Qmat [[0, 1]] [[1, 9/10]] 2 i j =
            entryOf [[1, 9/10]] (i - [[(0 : ℚ), 1]].length) j)) ∧
    (∀ (i : Fin 2) (j : Fin [[(0 : ℚ), 1]].length),
        ((i : Nat) < [[(0 : ℚ), 1]].length →
          Rmat 2 [[(0 : ℚ), 1]].length i j =
            if (i : Nat) = (j : Nat) then -1 else 0) ∧
        ([[(0 : ℚ), 1]].length ≤ (i : Nat) →
          Rmat 2 [[(0 : ℚ), 1]].length i j = 0)) ∧
    ((Qmat [[0, 1]] [[1, 9/10]] 2).det ≠ 0 →
        deriveCouplingMatrix [[0, 1]] [[1, 0]] [[1, 9/10]] 2 =
          .ok (-(Ymat [[1, 0]] 2 * symInv (Qmat [[0, 1]] [[1, 9/10]] 2) *
            Rmat 2 [[(0 : ℚ), 1]].length)) ∧
        Qmat [[0, 1]] [[1, 9/10]] 2 * symInv (Qmat [[0, 1]] [[1, 9/10]] 2) = 1 ∧
        symInv (Qmat [[0, 1]] [[1, 9/10]] 2) * Qmat [[0, 1]] [[1, 9/10]] 2 = 1) ∧
    ((Qmat [[0, 1]] [[1, 9/10]] 2).det = 0 →
        (∀ W : Matrix (Fin 2) (Fin 2) ℚ, Qmat [[0, 1]] [[1, 9/10]] 2 * W ≠ 1) ∧
        deriveCouplingMatrix [[0, 1]] [[1, 0]] [[1, 9/10]] 2 =
          .error .singular) :=
  c3_coupling_formula [[0, 1]] [[1, 0]] [[1, 9/10]] 2 rfl

/-! ## Lemmas for the dimension check -/

theorem buildZBlocks_ok_lengths (h : EnergyHub) (B : Nat) :
    ∀ (cs : List Component) (blocks : List (List (List ℚ))),
      buildZBlocks h B cs = .ok blocks →
      blocks.map List.length = cs.map (fun c => c.H.length)
  | [], blocks, hok => by
    unfold buildZBlocks at hok
    cases hok
    rfl
  | c :: rest, blocks, hok => by
    unfold buildZBlocks at hok
    cases hres : resolvePorts h c.name (portSigns c) with
    | error e => rw [hres] at hok; cases hok
    | ok asg =>
      rw [hres] at hok
      cases hrest : buildZBlocks h B rest with
      | error e => rw [hrest] at hok; cases hok
      | ok bs =>
        rw [hrest] at hok
        cases hok
        have ih := buildZBlocks_ok_lengths h B rest bs hrest
        simp [zBlock, ih]

theorem buildSystemMatrices_ok_shapes (h : EnergyHub)
    (X Y Z : List (List ℚ))
    (hok : buildSystemMatrices h = .ok (X, Y, Z)) :
    X.length = h.hubInputIdx.length ∧
    Y.length = h.hubOutputIdx.length ∧
    Z.length = (h.components.map (fun c => c.H.length)).sum := by
  unfold buildSystemMatrices at hok
  by_cases hB : h.globalBranches.length = 0
  · rw [if_pos hB] at hok; cases hok
  · rw [if_neg hB] at hok
    cases hblocks : buildZBlocks h h.globalBranches.length h.components with
    | error e => rw [hblocks] at hok; cases hok
    | ok blocks =>
      rw [hblocks] at hok
      cases hok
      refine ⟨by simp, by simp, ?_⟩
      rw [List.length_flatten, buildZBlocks_ok_lengths h _ _ _ hblocks]

/-- C4: for a hub whose assembly succeeded, the coupling derivation fails
with the Dimension error exactly when the hub-input count plus the total
component balance-row count differs from the branch count, and when they
agree it never fails on squareness grounds. -/
theorem c4_squareness_precondition (h : EnergyHub) (X Y Z : List (List ℚ))
    (hok : buildSystemMatrices h = .ok (X, Y, Z)) :
    (h.hubInputIdx.length + (h.components.map (fun c => c.H.length)).sum ≠
        h.globalBranches.length →
      deriveCouplingMatrix X Y Z h.globalBranches.length = .error .dimension) ∧
    (h.hubInputIdx.length + (h.components.map (fun c => c.H.length)).sum =
        h.globalBranches.length →
      deriveCouplingMatrix X Y Z h.globalBranches.length ≠
        .error .dimension) := by
  obtain ⟨hX, hY, hZ⟩ := buildSystemMatrices_ok_shapes h X Y Z hok
  constructor
  · intro hne
    unfold deriveCouplingMatrix
    rw [if_neg (by rw [hX, hZ]; exact hne)]
  · intro heq
    unfold deriveCouplingMatrix
    rw [if_pos (by rw [hX, hZ]; exact heq)]
    by_cases hdet : (Qmat X Z h.globalBranches.length).det = 0
    · rw [if_pos hdet]
      intro hcontra
      cases hcontra
    · rw [if_neg hdet]
      intro hcontra
      cases hcontra

/-- A degenerate hub (no components, one branch, no hub inputs) whose
assembly succeeds with empty matrices: `0 + 0 ≠ 1`, so the derivation
raises the Dimension error. -/
def degenerateHub : EnergyHub :=
  { components := []
    globalBranches := ["b"]
    portToGlobalBranch := []
    hubInputIdx := []
    hubOutputIdx := [] }

/-- Witness for C4 at the degenerate hub. -/
theorem c4_squareness_precondition_witness :
    ((degenerateHub.hubInputIdx.length +
        (degenerateHub.components.map (fun c => c.H.length)).sum ≠
        degenerateHub.globalBranches.length →
      deriveCouplingMatrix [] [] [] degenerateHub.globalBranches.length =
        .error .dimension) ∧
    (degenerateHub.hubInputIdx.length +
        (degenerateHub.components.map (fun c => c.H.length)).sum =
        degenerateHub.globalBranches.length →
      deriveCouplingMatrix [] [] [] degenerateHub.globalBranches.length ≠
        .error .dimension)) ∧
    deriveCouplingMatrix [] [] [] degenerateHub.globalBranches.length =
      .error .dimension :=
  ⟨c4_squareness_precondition degenerateHub [] [] [] rfl,
   (c4_squareness_precondition degenerateHub [] [] [] rfl).1 (by decide)⟩

/-! ## Lemmas for the binding error -/

theorem resolvePorts_unbound (h : EnergyHub) (n : String) :
    ∀ ports : List (String × Nat × ℚ),
      (∃ x ∈ ports, lookupBinding h n x.1 = none) →
      resolvePorts h n ports = .error .binding
  | [], hex => absurd hex (by simp)
  | (p, i, s) :: rest, hex => by
    unfold resolvePorts
    cases hb : lookupBinding h n p with
    | none => rfl
    | some b =>
      obtain ⟨x, hx, hnone⟩ := hex
      rcases List.mem_cons.mp hx with heq | hmem
      · subst heq
        rw [hb] at hnone
        cases hnone
      · rw [resolvePorts_unbound h n rest ⟨x, hmem, hnone⟩]
        rfl

theorem resolvePorts_error_val (h : EnergyHub) (n : String) :
    ∀ (ports : List (String × Nat × ℚ)) (e : Err),
      resolvePorts h n ports = .error e → e = .binding
  | [], e, herr => by cases herr
  | (p, i, s) :: rest, e, herr => by
    unfold resolvePorts at herr
    cases hb : lookupBinding h n p with
    | none => rw [hb] at herr; cases herr; rfl
    | some b =>
      rw [hb] at herr
      cases hrest : resolvePorts h n rest with
      | error e2 =>
        rw [hrest] at herr
        cases herr
        exact resolvePorts_error_val h n rest e hrest
      | ok asg => rw [hrest] at herr; cases herr

theorem buildZBlocks_unbound (h : EnergyHub) (B : Nat) :
    ∀ cs : List Component,
      (∃ c ∈ cs, ∃ x ∈ portSigns c, lookupBinding h c.name x.1 = none) →
      buildZBlocks h B cs = .error .binding
  | [], hex => absurd hex (by simp)
  | c :: rest, hex => by
    unfold buildZBlocks
    cases hres : resolvePorts h c.name (portSigns c) with
    | error e => rw [resolvePorts_error_val h c.name (portSigns c) e hres]
    | ok asg =>
      obtain ⟨d, hd, hx⟩ := hex
      rcases List.mem_cons.mp hd with heq | hmem
      · subst heq
        rw [resolvePorts_unbound h d.name (portSigns d) hx] at hres
        cases hres
      · rw [buildZBlocks_unbound h B rest ⟨d, hmem, hx⟩]
        rfl

/-- C8: if some component of the hub has a declared input or output port
with no `(component, port) → branch` binding, assembly fails with the
Binding error (producing no matrices); an unbound port is never treated
as a zero column. -/
theorem c8_unbound_port_fails (h : EnergyHub)
    (hB : h.globalBranches.length ≠ 0)
    (hun : ∃ c ∈ h.components, ∃ p i,
      ((p, i) ∈ c.inputPorts ∨ (p, i) ∈ c.outputPorts) ∧
      lookupBinding h c.name p = none) :
    buildSystemMatrices h = .error .binding := by
  obtain ⟨c, hc, p, i, hmem, hnone⟩ := hun
  have hsig : ∃ x ∈ portSigns c, lookupBinding h c.name x.1 = none := by
    rcases hmem with hin | hout
    · exact ⟨(p, i, 1), List.mem_append_left _
        (List.mem_map_of_mem (fun pi => (pi.1, pi.2, (1 : ℚ))) hin), hnone⟩
    · exact ⟨(p, i, -1), List.mem_append_right _
        (List.mem_map_of_mem (fun pi => (pi.1, pi.2, (-1 : ℚ))) hout), hnone⟩
  unfold buildSystemMatrices
  rw [if_neg hB, buildZBlocks_unbound h _ h.components ⟨c, hc, hsig⟩]

/-- A hub whose boiler ports were never bound. -/
def unboundHub : EnergyHub :=
  { components := [boiler1]
    globalBranches := ["b"]
    portToGlobalBranch := []
    hubInputIdx := []
    hubOutputIdx := [] }

/-- Witness for C8: the unbound hub assembles to the Binding error. -/
theorem c8_unbound_port_fails_witness :
    buildSystemMatrices unboundHub = .error .binding :=
  c8_unbound_port_fails unboundHub (by decide)
    ⟨boiler1, List.mem_singleton.mpr rfl, "fuel_in", 0,
     Or.inl (List.mem_singleton.mpr rfl), rfl⟩

/-! ## Lemmas for the incidence expansion -/

theorem foldl_updFun_untouched (r : Nat) :
    ∀ (l : List (Nat × Nat × ℚ)) (M : Nat → Nat → ℚ),
      (∀ x ∈ l, x.1 ≠ r) → ∀ j : Nat,
      (l.foldl (fun M e => updFun M e.1 e.2.1 e.2.2) M) r j = M r j
  | [], M, _, j => rfl
  | e :: l, M, hl, j => by
    rw [List.foldl_cons,
      foldl_updFun_untouched r l _ (fun x hx => hl x (List.mem_cons_of_mem e hx)) j]
    unfold updFun
    rw [if_neg]
    rintro ⟨h1, _⟩
    exact hl e (List.mem_cons_self e l) h1.symm

theorem agFun_unique_row (l₁ l₂ : List (Nat × Nat × ℚ)) (r b : Nat) (v : ℚ)
    (h₁ : ∀ x ∈ l₁, x.1 ≠ r) (h₂ : ∀ x ∈ l₂, x.1 ≠ r) :
    agFun (l₁ ++ (r, b, v) :: l₂) r b = v ∧
    ∀ j, j ≠ b → agFun (l₁ ++ (r, b, v) :: l₂) r j = 0 := by
  have key : ∀ j : Nat, agFun (l₁ ++ (r, b, v) :: l₂) r j =
      updFun (l₁.foldl (fun M e => updFun M e.1 e.2.1 e.2.2) (fun _ _ => 0))
        r b v r j := by
    intro j
    unfold agFun
    rw [List.foldl_append, List.foldl_cons]
    exact foldl_updFun_untouched r l₂ _ h₂ j
  constructor
  · rw [key b]
    unfold updFun
    rw [if_pos ⟨rfl, rfl⟩]
  · intro j hj
    rw [key j]
    unfold updFun
    rw [if_neg (fun hc => hj hc.2)]
    exact foldl_updFun_untouched r l₁ _ h₁ j

theorem resolvePorts_ok_cons (h : EnergyHub) (n p : String) (i : Nat) (s : ℚ)
    (rest : List (String × Nat × ℚ)) (asg : List (Nat × Nat × ℚ))
    (hok : resolvePorts h n ((p, i, s) :: rest) = .ok asg) :
    ∃ b as, lookupBinding h n p = some b ∧
      resolvePorts h n rest = .ok as ∧ asg = (i, b, s) :: as := by
  unfold resolvePorts at hok
  cases hb : lookupBinding h n p with
  | none => rw [hb] at hok; cases hok
  | some b =>
    rw [hb] at hok
    cases hrest : resolvePorts h n rest with
    | error e => rw [hrest] at hok; cases hok
    | ok as =>
      rw [hrest] at hok
      cases hok
      exact ⟨b, as, rfl, rfl, rfl⟩

theorem resolvePorts_ok_append (h : EnergyHub) (n : String) :
    ∀ (xs ys : List (String × Nat × ℚ)) (asg : List (Nat × Nat × ℚ)),
      resolvePorts h n (xs ++ ys) = .ok asg →
      ∃ as bs, asg = as ++ bs ∧
        resolvePorts h n xs = .ok as ∧ resolvePorts h n ys = .ok bs
  | [], ys, asg, hok => ⟨[], asg, rfl, rfl, hok⟩
  | (p, i, s) :: xs, ys, asg, hok => by
    rw [List.cons_append] at hok
    obtain ⟨b, as, hb, hrest, heq⟩ := resolvePorts_ok_cons h n p i s _ asg hok
    obtain ⟨as1, bs, heq2, hxs, hys⟩ := resolvePorts_ok_append h n xs ys as hrest
    refine ⟨(i, b, s) :: as1, bs, by rw [heq, heq2]; rfl, ?_, hys⟩
    unfold resolvePorts
    rw [hb, hxs]
    rfl

theorem resolvePorts_ok_rows (h : EnergyHub) (n : String) :
    ∀ (ports : List (String × Nat × ℚ)) (asg : List (Nat × Nat × ℚ)),
      resolvePorts h n ports = .ok asg →
      asg.map (fun e => e.1) = ports.map (fun x => x.2.1)
  | [], asg, hok => by
    unfold resolvePorts at hok
    cases hok
    rfl
  | (p, i, s) :: rest, asg, hok => by
    obtain ⟨b, as, _, hrest, heq⟩ := resolvePorts_ok_cons h n p i s rest asg hok
    subst heq
    simp only [List.map_cons]
    rw [resolvePorts_ok_rows h n rest as hrest]

theorem nodup_middle_not_mem {A B : List Nat} {i : Nat}
    (h : (A ++ i :: B).Nodup) : i ∉ A ∧ i ∉ B := by
  rw [List.nodup_append] at h
  obtain ⟨_, hcons, hdisj⟩ := h
  exact ⟨fun hA => hdisj hA (List.mem_cons_self i B),
    (List.nodup_cons.mp hcons).1⟩

/-- Core of C5: a port whose `(port row, bound column, sign)` triple sits
at a unique row of the resolved assignment list gets exactly that sign in
its row of the incidence expansion and zero everywhere else. -/
theorem agRow_of_split (h : EnergyHub) (c : Component)
    (asg : List (Nat × Nat × ℚ)) (p : String) (i : Nat) (s : ℚ)
    (L R : List (String × Nat × ℚ))
    (hres : resolvePorts h c.name (portSigns c) = .ok asg)
    (hsplit : portSigns c = L ++ (p, i, s) :: R)
    (hL : i ∉ L.map (fun x => x.2.1)) (hR : i ∉ R.map (fun x => x.2.1)) :
    ∃ b, lookupBinding h c.name p = some b ∧ agFun asg i b = s ∧
      ∀ j, j ≠ b → agFun asg i j = 0 := by
  rw [hsplit] at hres
  obtain ⟨A, rest, heq, hA, hrest⟩ :=
    resolvePorts_ok_append h c.name L ((p, i, s) :: R) asg hres
  obtain ⟨b, A2, hb, hA2, heq2⟩ :=
    resolvePorts_ok_cons h c.name p i s R rest hrest
  subst heq2
  subst heq
  have hrowsA : A.map (fun e => e.1) = L.map (fun x => x.2.1) :=
    resolvePorts_ok_rows h c.name L A hA
  have hrowsA2 : A2.map (fun e => e.1) = R.map (fun x => x.2.1) :=
    resolvePorts_ok_rows h c.name R A2 hA2
  refine ⟨b, hb, ?_⟩
  refine agFun_unique_row A A2 i b s ?_ ?_
  · intro x hx hxr
    apply hL
    rw [← hrowsA, ← hxr]
    exact List.mem_map_of_mem (fun e => e.1) hx
  · intro x hx hxr
    apply hR
    rw [← hrowsA2, ← hxr]
    exact List.mem_map_of_mem (fun e => e.1) hx

/-- C5: when every declared port of a component is bound and the local
port indices are distinct, each input port's row of the global incidence
expansion is `+1` at the bound branch column and `0` elsewhere, and each
output port's row is `-1` there and `0` elsewhere. -/
theorem c5_incidence_signs (h : EnergyHub) (c : Component)
    (asg : List (Nat × Nat × ℚ))
    (hres : resolvePorts h c.name (portSigns c) = .ok asg)
    (hnd : ((c.inputPorts ++ c.outputPorts).map Prod.snd).Nodup) :
    (∀ p i, (p, i) ∈ c.inputPorts →
      ∃ b, lookupBinding h c.name p = some b ∧ agFun asg i b = 1 ∧
        ∀ j, j ≠ b → agFun asg i j = 0) ∧
    (∀ p i, (p, i) ∈ c.outputPorts →
      ∃ b, lookupBinding h c.name p = some b ∧ agFun asg i b = -1 ∧
        ∀ j, j ≠ b → agFun asg i j = 0) := by
  constructor
  · intro p i hmem
    obtain ⟨a₁, a₂, hio⟩ := List.append_of_mem hmem
    have hsplit : portSigns c =
        a₁.map (fun pi => (pi.1, pi.2, (1 : ℚ))) ++ (p, i, (1 : ℚ)) ::
          (a₂.map (fun pi => (pi.1, pi.2, (1 : ℚ))) ++
            c.outputPorts.map (fun pi => (pi.1, pi.2, (-1 : ℚ)))) := by
      unfold portSigns
      rw [hio]
      simp [List.map_append, List.append_assoc]
    have hnd2 : (a₁.map Prod.snd ++ i ::
        (a₂.map Prod.snd ++ c.outputPorts.map Prod.snd)).Nodup := by
      rw [hio] at hnd
      simpa [List.map_append] using hnd
    obtain ⟨hL, hR⟩ := nodup_middle_not_mem hnd2
    rw [List.mem_append] at hR
    refine agRow_of_split h c asg p i 1 _ _ hres hsplit ?_ ?_
    · simpa [List.map_map, Function.comp] using hL
    · intro hcontra
      rw [List.map_append, List.mem_append] at hcontra
      rcases hcontra with hc1 | hc2
      · exact hR (Or.inl (by simpa [List.map_map, Function.comp] using hc1))
      · exact hR (Or.inr (by simpa [List.map_map, Function.comp] using hc2))
  · intro p i hmem
    obtain ⟨b₁, b₂, hio⟩ := List.append_of_mem hmem
    have hsplit : portSigns c =
        (c.inputPorts.map (fun pi => (pi.1, pi.2, (1 : ℚ))) ++
          b₁.map (fun pi => (pi.1, pi.2, (-1 : ℚ)))) ++ (p, i, (-1 : ℚ)) ::
          b₂.map (fun pi => (pi.1, pi.2, (-1 : ℚ))) := by
      unfold portSigns
      rw [hio]
      simp [List.map_append, List.append_assoc]
    have hnd2 : ((c.inputPorts.map Prod.snd ++ b₁.map Prod.snd) ++ i ::
        b₂.map Prod.snd).Nodup := by
      rw [hio] at hnd
      simpa [List.map_append, List.append_assoc] using hnd
    obtain ⟨hL, hR⟩ := nodup_middle_not_mem hnd2
    rw [List.mem_append] at hL
    refine agRow_of_split h c asg p i (-1) _ _ hres hsplit ?_ ?_
    · intro hcontra
      rw [List.map_append, List.mem_append] at hcontra
      rcases hcontra with hc1 | hc2
      · exact hL (Or.inl (by simpa [List.map_map, Function.comp] using hc1))
      · exact hL (Or.inr (by simpa [List.map_map, Function.comp] using hc2))
    · simpa [List.map_map, Function.comp] using hR

/-- Witness for C5 at the boiler of the two-converter scenario. -/
theorem c5_incidence_signs_witness :
    (∀ p i, (p, i) ∈ boiler1.inputPorts →
      ∃ b, lookupBinding scenarioHub boiler1.name p = some b ∧
        agFun [(0, 3, 1), (1, 0, -1)] i b = 1 ∧
        ∀ j, j ≠ b → agFun [(0, 3, 1), (1, 0, -1)] i j = 0) ∧
    (∀ p i, (p, i) ∈ boiler1.outputPorts →
      ∃ b, lookupBinding scenarioHub boiler1.name p = some b ∧
        agFun [(0, 3, 1), (1, 0, -1)] i b = -1 ∧
        ∀ j, j ≠ b → agFun [(0, 3, 1), (1, 0, -1)] i j = 0) :=
  c5_incidence_signs scenarioHub boiler1 [(0, 3, 1), (1, 0, -1)] rfl
    (by decide)

/-! ## Lemmas for duplicate port bindings (fan-out) -/

/-- The edge references `(c, p)` on its source side (a component output
port). -/
def incidentSrc (g : TopoGraph) (c p : String) (e : RawEdge) : Bool :=
  isCompNode g e.src && (e.src = c) && (e.srcPort = p)

/-- The edge references `(c, p)` on its destination side (a component
input port). -/
def incidentDst (g : TopoGraph) (c p : String) (e : RawEdge) : Bool :=
  isCompNode g e.dst && (e.dst = c) && (e.dstPort = p)

/-- The edge contributes a `port_mappings` assignment with key `(c, p)`. -/
def incident (g : TopoGraph) (c p : String) (e : RawEdge) : Bool :=
  incidentSrc g c p e || incidentDst g c p e

theorem filter_key_single (c p u q v : String) (b : Bool) :
    ((if b then [((u, q), v)] else []).filter
        (fun kv => kv.1 = (c, p))) =
      (if b && (u = c) && (q = p) then [((c, p), v)] else []) := by
  cases b with
  | false => rfl
  | true =>
    by_cases hu : u = c
    · by_cases hq : q = p
      · subst hu; subst hq
        simp [List.filter]
      · simp [List.filter, hq]
    · simp [List.filter, hu]

theorem getLast?_flatMap_const {α β : Type} (f : α → List β) (P : α → Bool)
    (val : α → β) (hne : ∀ e, f e ≠ [] ↔ P e = true)
    (hval : ∀ e, ∀ y ∈ f e, y = val e) :
    ∀ es : List α, (es.flatMap f).getLast? = ((es.filter P).getLast?).map val := by
  intro es
  induction es using List.reverseRecOn with
  | nil => rfl
  | append_singleton l e ih =>
    rw [List.flatMap_append, List.getLast?_append, List.filter_append]
    by_cases hP : P e = true
    · have hfe : f e ≠ [] := (hne e).mpr hP
      have hlast : (f e).getLast? = some ((f e).getLast hfe) :=
        List.getLast?_eq_getLast _ hfe
      have hv : (f e).getLast hfe = val e :=
        hval e _ (List.getLast_mem hfe)
      simp only [List.flatMap_cons, List.flatMap_nil, List.append_nil,
        hlast, hv, Option.or]
      rw [List.filter_cons_of_pos hP]
      simp [List.getLast?_concat]
    · have hfe : f e = [] := by
        by_contra hc
        exact hP ((hne e).mp hc)
      rw [List.filter_cons_of_neg hP]
      simp only [List.flatMap_cons, List.flatMap_nil, List.append_nil, hfe]
      simpa using ih

theorem bindingOfGraph_eq_last_incident (g : TopoGraph) (c p : String)
    (hnv : ∀ s ∈ storageComps g, ¬(s.name = c ∧ p = "delta_soc")) :
    bindingOfGraph g c p =
      (((enumEdges g).filter (incident g c p)).getLast?).map branchName := by
  unfold bindingOfGraph bindingOf buildConfig
  simp only
  rw [List.filter_append]
  have hvirt : (virtualAssignments g).filter
      (fun kv => kv.1 = (c, p)) = [] := by
    rw [List.filter_eq_nil_iff]
    intro x hx
    unfold virtualAssignments at hx
    obtain ⟨s, hs, hxs⟩ := List.mem_map.mp hx
    subst hxs
    simp only [decide_eq_true_eq, Prod.mk.injEq]
    intro hcontra
    exact hnv s hs ⟨hcontra.1, hcontra.2.symm⟩
  rw [hvirt, List.append_nil]
  unfold edgeAssignments
  have key : ∀ e : RawEdge,
      (((if isCompNode g e.src then [((e.src, e.srcPort), branchName e)] else [])
        ++ (if isCompNode g e.dst then [((e.dst, e.dstPort), branchName e)] else [])).filter
          (fun kv => kv.1 = (c, p))) =
      ((if incidentSrc g c p e then [((c, p), branchName e)] else [])
        ++ (if incidentDst g c p e then [((c, p), branchName e)] else [])) := by
    intro e
    rw [List.filter_append, filter_key_single, filter_key_single]
    rfl
  have hflt : ((enumEdges g).flatMap
      (fun e =>
        (if isCompNode g e.src then [((e.src, e.srcPort), branchName e)] else [])
          ++ (if isCompNode g e.dst then [((e.dst, e.dstPort), branchName e)] else []))).filter
        (fun kv => kv.1 = (c, p)) =
      (enumEdges g).flatMap
        (fun e => ((if incidentSrc g c p e then [((c, p), branchName e)] else [])
          ++ (if incidentDst g c p e then [((c, p), branchName e)] else []))) := by
    rw [List.filter_flatMap]
    exact List.flatMap_congr (fun e _ => key e)
  rw [hflt]
  rw [getLast?_flatMap_const _ (incident g c p)
    (fun e => ((c, p), branchName e)) ?hne ?hval (enumEdges g)]
  · rw [Option.map_map]
    rfl
  case hne =>
    intro e
    unfold incident
    cases hs : incidentSrc g c p e <;> cases hd : incidentDst g c p e <;> simp
  case hval =>
    intro e y hy
    rcases List.mem_append.mp hy with hy1 | hy1 <;>
      [skip; skip] <;>
      · rcases Bool.dichotomy (incidentSrc g c p e) with hb | hb <;>
          rcases Bool.dichotomy (incidentDst g c p e) with hb2 | hb2 <;>
            simp [hb, hb2] at hy1 <;> simp [hy1]

/-- A fan-out topology: one CHP electricity port connected to two
different demand nodes by two `connect` calls. -/
def c9graphValue : TopoGraph :=
  { nodes :=
      [⟨"CHP1", .component (CHPBackPressure "CHP1" (4/5) (3/10) [])⟩,
       ⟨"D1", .ioNode .output⟩,
       ⟨"D2", .ioNode .output⟩]
    edges :=
      [⟨"CHP1", "elec_out", "D1", "in"⟩, ⟨"CHP1", "elec_out", "D2", "in"⟩] }

/-! ## Lemmas for the storage virtual branch -/

theorem filter_unique_singleton {α : Type} :
    ∀ (l : List α) (s : α) (q : α → Bool), s ∈ l → q s = true →
      (∀ x ∈ l, q x = true → x = s) → l.Nodup → l.filter q = [s]
  | [], s, q, hs, _, _, _ => absurd hs (List.not_mem_nil s)
  | a :: l, s, q, hs, hq, huniq, hnd => by
    by_cases ha : a = s
    · subst ha
      rw [List.filter_cons_of_pos hq]
      have hnil : l.filter q = [] := by
        rw [List.filter_eq_nil_iff]
        intro x hx hqx
        have := huniq x (List.mem_cons_of_mem a hx) hqx
        subst this
        exact (List.nodup_cons.mp hnd).1 hx
      rw [hnil]
    · have hqa : q a = false := by
        cases hqa : q a with
        | false => rfl
        | true => exact absurd (huniq a (List.mem_cons_self a l) hqa) ha
      rw [List.filter_cons_of_neg (by simp [hqa])]
      have hs2 : s ∈ l := by
        rcases List.mem_cons.mp hs with h | h
        · exact absurd h.symm ha
        · exact h
      exact filter_unique_singleton l s q hs2 hq
        (fun x hx => huniq x (List.mem_cons_of_mem a hx))
        (List.nodup_cons.mp hnd).2

theorem virtualBranchName_name_inj {c d : Component}
    (h : virtualBranchName c = virtualBranchName d) : c.name = d.name := by
  unfold virtualBranchName at h
  have hd := congrArg String.data h
  rw [String.data_append, String.data_append] at hd
  exact String.ext (List.append_cancel_right hd)

theorem storageComps_nodup (g : TopoGraph)
    (hnames : ((componentsOf g).map Component.name).Nodup) :
    (storageComps g).Nodup :=
  (List.Nodup.of_map Component.name hnames).filter _

theorem storageComps_name_inj (g : TopoGraph)
    (hnames : ((componentsOf g).map Component.name).Nodup)
    {c d : Component} (hc : c ∈ storageComps g) (hd : d ∈ storageComps g)
    (h : c.name = d.name) : c = d :=
  List.inj_on_of_nodup_map hnames (List.mem_of_mem_filter hc)
    (List.mem_of_mem_filter hd) h

/-- The `(storage name, delta_soc)` key is always bound to the
auto-generated virtual branch: the virtual pass writes its assignment
after every edge assignment, so it wins the dict overwrite regardless of
any edges into the virtual port. -/
theorem bindingOfGraph_storage_virtual (g : TopoGraph) (s : Component)
    (hs : s ∈ storageComps g)
    (hnames : ((componentsOf g).map Component.name).Nodup) :
    bindingOfGraph g s.name "delta_soc" = some (virtualBranchName s) := by
  have hfv : (virtualAssignments g).filter
      (fun kv => kv.1 = (s.name, "delta_soc")) =
      [((s.name, "delta_soc"), virtualBranchName s)] := by
    unfold virtualAssignments
    rw [List.filter_map]
    have hfe : (storageComps g).filter
        ((fun kv : (String × String) × String =>
          decide (kv.1 = (s.name, "delta_soc"))) ∘
            (fun c => ((c.name, "delta_soc"), virtualBranchName c))) = [s] := by
      apply filter_unique_singleton (storageComps g) s _ hs (by simp)
        ?uniq (storageComps_nodup g hnames)
      case uniq =>
        intro x hx hqx
        simp only [Function.comp, decide_eq_true_eq, Prod.mk.injEq] at hqx
        exact storageComps_name_inj g hnames hx hs hqx.1
    rw [hfe]
    rfl
  show bindingOf (edgeAssignments g ++ virtualAssignments g) s.name
    "delta_soc" = _
  unfold bindingOf
  rw [List.filter_append, List.getLast?_append, hfv]
  rfl

/-- C6 (amended): for a topology with unique component names containing a
storage component, *provided no storage's auto-generated virtual branch
name collides with a per-edge branch name*, the compiled branch list
contains, beyond the (deduplicated) per-edge branches, exactly one extra
branch per storage component; the extra branch is named
`<component name>_delta_soc_branch` and is bound to the component's
`delta_soc` virtual port, with no edge to that port required.  The
collision-freedom proviso is necessary: see the name-aliasing
counterexample, where set-deduplication merges the virtual branch with an
equally named edge branch and no additional branch appears. -/
theorem c6_storage_virtual_branch (g : TopoGraph) (s : Component)
    (hs : s ∈ storageComps g)
    (hnames : ((componentsOf g).map Component.name).Nodup)
    (hdisj : ∀ c ∈ storageComps g,
      virtualBranchName c ∉ (enumEdges g).map branchName) :
    virtualBranchName s ∈ (buildConfig g).branches ∧
    bindingOfGraph g s.name "delta_soc" = some (virtualBranchName s) ∧
    (buildConfig g).branches.length =
      (sortDedup ((enumEdges g).map branchName)).length +
        (storageComps g).length := by
  refine ⟨?_, ?_, ?_⟩
  · show virtualBranchName s ∈ sortDedup _
    rw [mem_sortDedup]
    exact List.mem_append_right _
      (List.mem_map_of_mem virtualBranchName hs)
  · exact bindingOfGraph_storage_virtual g s hs hnames
  · show (sortDedup ((enumEdges g).map branchName ++
      (storageComps g).map virtualBranchName)).length = _
    rw [sortDedup_length, sortDedup_length, List.toFinset_append]
    have hvnodup : ((storageComps g).map virtualBranchName).Nodup := by
      refine List.Nodup.map_on ?_ (storageComps_nodup g hnames)
      intro x hx y hy hxy
      exact storageComps_name_inj g hnames hx hy
        (virtualBranchName_name_inj hxy)
    have hdisj2 : Disjoint ((enumEdges g).map branchName).toFinset
        ((storageComps g).map virtualBranchName).toFinset := by
      rw [Finset.disjoint_right]
      intro a ha hae
      rw [List.mem_toFinset] at ha hae
      obtain ⟨c, hc, hca⟩ := List.mem_map.mp ha
      subst hca
      exact hdisj c hc hae
    rw [Finset.card_union_of_disjoint hdisj2]
    congr 1
    rw [List.card_toFinset, hvnodup.dedup, List.length_map]

/-- A topology with one storage component (charge edge in, discharge edge
out, no edge to the virtual port). -/
def c6graphValue : TopoGraph :=
  { nodes :=
      [⟨"Bat", .component (Storage "Bat" (1/2) (2/3))⟩,
       ⟨"In1", .ioNode .input⟩,
       ⟨"Out1", .ioNode .output⟩]
    edges :=
      [⟨"In1", "out", "Bat", "energy_in"⟩,
       ⟨"Bat", "energy_out", "Out1", "in"⟩] }

/-- Witness for C6 at the one-storage topology. -/
theorem c6_storage_virtual_branch_witness :
    virtualBranchName (Storage "Bat" (1/2) (2/3)) ∈
      (buildConfig c6graphValue).branches ∧
    bindingOfGraph c6graphValue (Storage "Bat" (1/2) (2/3)).name
      "delta_soc" = some (virtualBranchName (Storage "Bat" (1/2) (2/3))) ∧
    (buildConfig c6graphValue).branches.length =
      (sortDedup ((enumEdges c6graphValue).map branchName)).length +
        (storageComps c6graphValue).length :=
  c6_storage_virtual_branch c6graphValue (Storage "Bat" (1/2) (2/3))
    (List.mem_singleton.mpr rfl) (by decide) (by decide)

/-- Name-aliasing topology refuting C6 as frozen: the storage is named
`N_out_to_M`, and the legal boundary-to-boundary edge
`N.out → M.delta_soc_branch` produces the edge branch name
`N_out_to_M_delta_soc_branch`, which is literally the storage's virtual
branch name. -/
def c6badGraphResult : Except Err TopoGraph := do
  let g ← addComponent emptyGraph (Storage "N_out_to_M" (1/2) (2/3))
  let g ← addIONode g "N" .input
  let g ← addIONode g "M" .output
  let g ← connect g "N" "out" "N_out_to_M" "energy_in"
  let g ← connect g "N_out_to_M" "energy_out" "M" "in"
  connect g "N" "out" "M" "delta_soc_branch"

def c6badGraphValue : TopoGraph :=
  { nodes :=
      [⟨"N_out_to_M", .component (Storage "N_out_to_M" (1/2) (2/3))⟩,
       ⟨"N", .ioNode .input⟩,
       ⟨"M", .ioNode .output⟩]
    edges :=
      [⟨"N", "out", "N_out_to_M", "energy_in"⟩,
       ⟨"N_out_to_M", "energy_out", "M", "in"⟩,
       ⟨"N", "out", "M", "delta_soc_branch"⟩] }

/-- Counterexample to C6 as frozen: all six builder calls succeed, no
edge references the storage's virtual port, yet the virtual branch name
coincides with a per-edge branch name, so after `set` deduplication the
compiled branch list has exactly the three per-edge branches — zero
additional branches for the storage — while the virtual binding and the
whole assembly still succeed. -/
theorem c6_virtual_branch_aliasing_counterexample :
    c6badGraphResult = .ok c6badGraphValue ∧
    (∀ e ∈ enumEdges c6badGraphValue,
      ¬(incidentSrc c6badGraphValue "N_out_to_M" "delta_soc" e = true) ∧
      ¬(incidentDst c6badGraphValue "N_out_to_M" "delta_soc" e = true)) ∧
    virtualBranchName (Storage "N_out_to_M" (1/2) (2/3)) ∈
      (enumEdges c6badGraphValue).map branchName ∧
    ((enumEdges c6badGraphValue).map branchName).Nodup ∧
    (enumEdges c6badGraphValue).length = 3 ∧
    (buildConfig c6badGraphValue).branches.length = 3 ∧
    (buildConfig c6badGraphValue).branches.length =
      (sortDedup ((enumEdges c6badGraphValue).map branchName)).length ∧
    bindingOfGraph c6badGraphValue "N_out_to_M" "delta_soc" =
      some (virtualBranchName (Storage "N_out_to_M" (1/2) (2/3))) :=
  ⟨rfl, by decide, by decide, by decide, rfl, rfl, rfl, rfl⟩

/-- C9 (amended, implicit): when one `(component, port)` pair occurs in
several edges (e.g. fan-out from one output port), compilation raises no
error and records a single binding for the pair.  For every pair other
than a storage component's `(name, delta_soc)` virtual-port key, the
binding is the branch of the edge enumerated last, so no other incident
branch is bound to that port; a storage's `delta_soc` key is instead
rebound by the later virtual pass to the auto-generated virtual branch,
whatever edges reference it. -/
theorem c9_last_edge_wins (g : TopoGraph) (c p : String)
    (hne : (enumEdges g).filter (incident g c p) ≠ []) :
    ((∀ s ∈ storageComps g, ¬(s.name = c ∧ p = "delta_soc")) →
      bindingOfGraph g c p =
        some (branchName
          (((enumEdges g).filter (incident g c p)).getLast hne)) ∧
      ∀ e ∈ (enumEdges g).filter (incident g c p),
        branchName e ≠
          branchName (((enumEdges g).filter (incident g c p)).getLast hne) →
        bindingOfGraph g c p ≠ some (branchName e)) ∧
    (∀ s ∈ storageComps g, s.name = c → p = "delta_soc" →
      ((componentsOf g).map Component.name).Nodup →
      bindingOfGraph g c p = some (virtualBranchName s)) := by
  constructor
  · intro hnv
    have h1 := bindingOfGraph_eq_last_incident g c p hnv
    rw [List.getLast?_eq_getLast _ hne] at h1
    refine ⟨h1, ?_⟩
    intro e _ hdiff hcontra
    have h2 : some (branchName
        (((enumEdges g).filter (incident g c p)).getLast hne)) =
        some (branchName e) := h1.symm.trans hcontra
    exact hdiff (Option.some.inj h2).symm
  · intro s hs hname hp hnames
    subst hname
    subst hp
    exact bindingOfGraph_storage_virtual g s hs hnames

/-- Witness for C9: in the fan-out topology the port is bound to the
branch of the second (last enumerated) edge. -/
theorem c9_last_edge_wins_witness :
    bindingOfGraph c9graphValue "CHP1" "elec_out" =
      some "CHP1_elec_out_to_D2_in" := by
  have h := ((c9_last_edge_wins c9graphValue "CHP1" "elec_out"
    (by decide)).1 (by decide)).1
  exact h.trans rfl

/-- Two legal `connect` calls into the storage's `delta_soc` virtual port
(it is a declared input port, so `connect` accepts it). -/
def c9badGraphResult : Except Err TopoGraph := do
  let g ← addComponent emptyGraph (Storage "Bat" (1/2) (2/3))
  let g ← addIONode g "In1" .input
  let g ← addIONode g "In2" .input
  let g ← connect g "In1" "out" "Bat" "delta_soc"
  connect g "In2" "out" "Bat" "delta_soc"

def c9badGraphValue : TopoGraph :=
  { nodes :=
      [⟨"Bat", .component (Storage "Bat" (1/2) (2/3))⟩,
       ⟨"In1", .ioNode .input⟩,
       ⟨"In2", .ioNode .input⟩]
    edges :=
      [⟨"In1", "out", "Bat", "delta_soc"⟩,
       ⟨"In2", "out", "Bat", "delta_soc"⟩] }

/-- Counterexample to C9 as frozen: `(Bat, delta_soc)` appears in two
accepted edges, yet the final binding is the auto-generated virtual
branch (the virtual pass overwrites the edge loop), not the branch of the
edge enumerated last. -/
theorem c9_virtual_overwrite_counterexample :
    c9badGraphResult = .ok c9badGraphValue ∧
    (enumEdges c9badGraphValue).filter
        (incident c9badGraphValue "Bat" "delta_soc") =
      [⟨"In1", "out", "Bat", "delta_soc"⟩,
       ⟨"In2", "out", "Bat", "delta_soc"⟩] ∧
    bindingOfGraph c9badGraphValue "Bat" "delta_soc" =
      some "Bat_delta_soc_branch" ∧
    bindingOfGraph c9badGraphValue "Bat" "delta_soc" ≠
      some (branchName (⟨"In2", "out", "Bat", "delta_soc"⟩ : RawEdge)) :=
  ⟨rfl, rfl, rfl, by decide⟩

/-! ## Lemmas for the storage balance row -/

theorem getD_map_range (B j : Nat) (f : Nat → ℚ) (h : j < B) :
    ((List.range B).map f).getD j 0 = f j := by
  rw [List.getD_eq_getElem?_getD, List.getElem?_map, List.getElem?_range h]
  rfl

/-- C10 (implicit): the storage component registers its virtual
`delta_soc` port as an input port with local index 2, so the assembler
gives it incidence `+1`; the assembled storage `Z` row carries `eta_c` at
the energy-in branch column, `1/eta_d` at the energy-out branch column and
`-1` at the virtual branch column, zero elsewhere, so the enforced global
balance over any branch valuation `v` reads
`eta_c * v_in + v_out / eta_d - dE`. -/
theorem c10_storage_balance_row (h : EnergyHub) (nm : String) (ec ed : ℚ)
    (b0 b1 b2 B : Nat)
    (hed : ed ≠ 0)
    (hb0 : lookupBinding h nm "energy_in" = some b0)
    (hb1 : lookupBinding h nm "energy_out" = some b1)
    (hb2 : lookupBinding h nm "delta_soc" = some b2)
    (h01 : b0 ≠ b1) (h02 : b0 ≠ b2) (h12 : b1 ≠ b2)
    (hB0 : b0 < B) (hB1 : b1 < B) (hB2 : b2 < B) :
    ("delta_soc", 2) ∈ (Storage nm ec ed).inputPorts ∧
    resolvePorts h nm (portSigns (Storage nm ec ed)) =
      .ok [(0, b0, 1), (2, b2, 1), (1, b1, -1)] ∧
    agFun [(0, b0, 1), (2, b2, 1), (1, b1, -1)] 2 b2 = 1 ∧
    zBlock (Storage nm ec ed) (agFun [(0, b0, 1), (2, b2, 1), (1, b1, -1)]) B =
      [(List.range B).map (fun j =>
        if j = b0 then ec else if j = b1 then 1 / ed else
          if j = b2 then -1 else 0)] ∧
    ∀ v : Nat → ℚ,
      (∑ j ∈ Finset.range B,
        ((zBlock (Storage nm ec ed)
            (agFun [(0, b0, 1), (2, b2, 1), (1, b1, -1)]) B).getD 0 []).getD
          j 0 * v j) =
        ec * v b0 + v b1 / ed - v b2 := by
  have hres : resolvePorts h nm (portSigns (Storage nm ec ed)) =
      .ok [(0, b0, 1), (2, b2, 1), (1, b1, -1)] := by
    show resolvePorts h nm
      [("energy_in", 0, 1), ("delta_soc", 2, 1), ("energy_out", 1, -1)] = _
    simp only [resolvePorts, hb0, hb1, hb2, Except.map]
  have hag0 : ∀ j, agFun [(0, b0, 1), (2, b2, 1), (1, b1, -1)] 0 j =
      if j = b0 then 1 else 0 := by
    intro j
    simp [agFun, updFun]
  have hag1 : ∀ j, agFun [(0, b0, 1), (2, b2, 1), (1, b1, -1)] 1 j =
      if j = b1 then -1 else 0 := by
    intro j
    simp [agFun, updFun]
  have hag2 : ∀ j, agFun [(0, b0, 1), (2, b2, 1), (1, b1, -1)] 2 j =
      if j = b2 then 1 else 0 := by
    intro j
    simp [agFun, updFun]
  have hrow : ∀ j : Nat,
      ((List.range (Storage nm ec ed).numPorts).map
        (fun p => hEntry (Storage nm ec ed) 0 p *
          agFun [(0, b0, 1), (2, b2, 1), (1, b1, -1)] p j)).sum =
      (if j = b0 then ec else if j = b1 then 1 / ed else
        if j = b2 then -1 else 0) := by
    intro j
    show ((List.range 3).map _).sum = _
    rw [List.range_succ, List.range_succ, List.range_succ, List.range_zero]
    simp only [List.map_append, List.map_cons, List.map_nil, List.sum_append,
      List.sum_cons, List.sum_nil, List.nil_append]
    rw [hag0 j, hag1 j, hag2 j,
      show hEntry (Storage nm ec ed) 0 0 = ec from rfl,
      show hEntry (Storage nm ec ed) 0 1 = -1 / ed from rfl,
      show hEntry (Storage nm ec ed) 0 2 = -1 from rfl]
    by_cases h0 : j = b0
    · subst h0
      rw [if_pos rfl, if_neg (fun hc => h01 hc), if_neg (fun hc => h02 hc),
        if_pos rfl]
      ring
    · by_cases h1 : j = b1
      · subst h1
        rw [if_neg h0, if_pos rfl, if_neg (fun hc => h12 hc), if_neg h0,
          if_pos rfl]
        ring
      · by_cases h2 : j = b2
        · subst h2
          rw [if_neg h0, if_neg h1, if_pos rfl, if_neg h0, if_neg h1,
            if_pos rfl]
          ring
        · rw [if_neg h0, if_neg h1, if_neg h2, if_neg h0, if_neg h1,
            if_neg h2]
          ring
  have hz : zBlock (Storage nm ec ed)
      (agFun [(0, b0, 1), (2, b2, 1), (1, b1, -1)]) B =
      [(List.range B).map (fun j =>
        if j = b0 then ec else if j = b1 then 1 / ed else
          if j = b2 then -1 else 0)] := by
    show [zRow (Storage nm ec ed) _ B 0] = _
    congr 1
    unfold zRow
    exact List.map_congr_left (fun j _ => hrow j)
  refine ⟨by simp [Storage], hres, by simp [agFun, updFun], hz, ?_⟩
  intro v
  rw [hz]
  have hterm : ∀ j ∈ Finset.range B,
      (([(List.range B).map (fun j =>
        if j = b0 then ec else if j = b1 then 1 / ed else
          if j = b2 then -1 else 0)].getD 0 []).getD j 0) * v j =
      (if j = b0 then ec * v j else 0) + ((if j = b1 then (1 / ed) * v j else 0)
        + (if j = b2 then -(v j) else 0)) := by
    intro j hj
    rw [show ([(List.range B).map (fun j =>
        if j = b0 then ec else if j = b1 then 1 / ed else
          if j = b2 then -1 else 0)].getD 0 []) = (List.range B).map (fun j =>
        if j = b0 then ec else if j = b1 then 1 / ed else
          if j = b2 then -1 else 0) from rfl]
    rw [getD_map_range B j _ (Finset.mem_range.mp hj)]
    by_cases h0 : j = b0
    · subst h0
      rw [if_pos rfl, if_neg (fun hc => h01 hc), if_neg (fun hc => h02 hc),
        if_pos rfl]
      ring
    · by_cases h1 : j = b1
      · subst h1
        rw [if_neg h0, if_pos rfl, if_neg (fun hc => h12 hc), if_neg h0,
          if_pos rfl]
        ring
      · by_cases h2 : j = b2
        · subst h2
          rw [if_neg h0, if_neg h1, if_pos rfl, if_neg h0, if_neg h1,
            if_pos rfl]
          ring
        · rw [if_neg h0, if_neg h1, if_neg h2, if_neg h0, if_neg h1,
            if_neg h2]
          ring
  rw [Finset.sum_congr rfl hterm, Finset.sum_add_distrib, Finset.sum_add_distrib,
    Finset.sum_ite_eq' (Finset.range B) b0 (fun j => ec * v j),
    Finset.sum_ite_eq' (Finset.range B) b1 (fun j => (1 / ed) * v j),
    Finset.sum_ite_eq' (Finset.range B) b2 (fun j => -(v j)),
    if_pos (Finset.mem_range.mpr hB0), if_pos (Finset.mem_range.mpr hB1),
    if_pos (Finset.mem_range.mpr hB2)]
  ring

/-- A hub binding the three storage ports of a battery to branches
0, 1, 2. -/
def storageHub : EnergyHub :=
  { components := [Storage "Bat" (1/2) (2/3)]
    globalBranches := ["a", "b", "c"]
    portToGlobalBranch :=
      [(("Bat", "energy_in"), 0), (("Bat", "energy_out"), 1),
       (("Bat", "delta_soc"), 2)]
    hubInputIdx := []
    hubOutputIdx := [] }

/-- Witness for C10 at the battery hub with
`eta_c = 1/2`, `eta_d = 2/3`, three branches. -/
theorem c10_storage_balance_row_witness :
    ("delta_soc", 2) ∈ (Storage "Bat" (1/2) (2/3)).inputPorts ∧
    resolvePorts storageHub "Bat" (portSigns (Storage "Bat" (1/2) (2/3))) =
      .ok [(0, 0, 1), (2, 2, 1), (1, 1, -1)] ∧
    agFun [(0, 0, 1), (2, 2, 1), (1, 1, -1)] 2 2 = 1 ∧
    zBlock (Storage "Bat" (1/2) (2/3))
        (agFun [(0, 0, 1), (2, 2, 1), (1, 1, -1)]) 3 =
      [(List.range 3).map (fun j =>
        if j = 0 then (1 : ℚ)/2 else if j = 1 then 1 / (2/3) else
          if j = 2 then -1 else 0)] ∧
    ∀ v : Nat → ℚ,
      (∑ j ∈ Finset.range 3,
        ((zBlock (Storage "Bat" (1/2) (2/3))
            (agFun [(0, 0, 1), (2, 2, 1), (1, 1, -1)]) 3).getD 0 []).getD
          j 0 * v j) =
        (1 : ℚ)/2 * v 0 + v 1 / (2/3) - v 2 :=
  c10_storage_balance_row storageHub "Bat" (1/2) (2/3) 0 1 2 3
    (by norm_num) rfl rfl rfl (by decide) (by decide) (by decide)
    (by decide) (by decide) (by decide)

end PyMESHub
